import Mathlib

/-!
# Verification of the tradesensei screening / indicator engine

Shallow embedding of the indicator functions in `src/app.py`
(`supertrend`, `rsi`, `volume_profile`) and of the screening engine in
`src/utils/screener.py` (`fundamental_screen`, `technical_screen`,
`combined_screen`, `rsi_screen`) together with the scoring helper
`calculate_financial_score` from `src/utils/fundamentals.py`.

Numeric series values are rationals; pandas' IEEE-754 special values
(`nan`, `inf`, `-inf`) that arise from divisions are modelled by the
`EV` type below.  Missing values (Python `None`, or a pandas value
that is undefined during an indicator's warm-up window) are modelled
with `Option`.
-/

/-- Extended value: a pandas/NumPy float that may be NaN or ±infinity.
Arithmetic follows IEEE-754 semantics on the cases that arise. -/
inductive EV : Type
  | nan : EV
  | inf : EV
  | ninf : EV
  | num : ℚ → EV
  deriving DecidableEq, Repr

namespace EV

/-- IEEE negation. -/
def neg : EV → EV
  | nan => nan
  | inf => ninf
  | ninf => inf
  | num a => num (-a)

/-- IEEE addition (`inf + -inf = nan`, `nan` propagates). -/
def add : EV → EV → EV
  | nan, _ => nan
  | _, nan => nan
  | inf, ninf => nan
  | inf, _ => inf
  | ninf, inf => nan
  | ninf, _ => ninf
  | num _, inf => inf
  | num _, ninf => ninf
  | num a, num b => num (a + b)

/-- IEEE subtraction, `a - b = a + (-b)`. -/
def sub (x y : EV) : EV := add x (neg y)

/-- IEEE division.  `0/0 = nan`, `a/0 = ±inf` for `a ≠ 0` (zero is
unsigned here, as produced by pandas on nonnegative data),
`a/±inf = 0`, `±inf/±inf = nan`. -/
def div : EV → EV → EV
  | nan, _ => nan
  | _, nan => nan
  | inf, inf => nan
  | inf, ninf => nan
  | ninf, inf => nan
  | ninf, ninf => nan
  | inf, num b => if 0 ≤ b then inf else ninf
  | ninf, num b => if 0 ≤ b then ninf else inf
  | num _, inf => num 0
  | num _, ninf => num 0
  | num a, num b =>
      if b = 0 then (if a = 0 then nan else if 0 < a then inf else ninf)
      else num (a / b)

end EV

/-!
## RSI (`src/app.py`, `rsi`, lines 60-71)

```python
delta = close.diff()
gain = delta.where(delta > 0, 0)
loss = -delta.where(delta < 0, 0)
avg_gain = gain.rolling(window=window).mean()
avg_loss = loss.rolling(window=window).mean()
rs = avg_gain / avg_loss
rsi = 100 - (100 / (1 + rs))
```

`close.diff()` is NaN at index 0; `where(delta > 0, 0)` maps that NaN
to 0 (NaN > 0 is false), so the gain/loss series are plain rationals.
The rolling mean is NaN (`none`) until a full window is available.
The same formula appears in `calculate_technical_indicators`
(`src/utils/market_data.py`, lines 135-140).
-/

/-- Per-bar gain: `delta.where(delta > 0, 0)`; index 0 yields 0. -/
def gain (close : ℕ → ℚ) : ℕ → ℚ
  | 0 => 0
  | i + 1 => if 0 < close (i + 1) - close i then close (i + 1) - close i else 0

/-- Per-bar loss: `-delta.where(delta < 0, 0)`; index 0 yields 0. -/
def loss (close : ℕ → ℚ) : ℕ → ℚ
  | 0 => 0
  | i + 1 => if close (i + 1) - close i < 0 then -(close (i + 1) - close i) else 0

/-- Models `gain.rolling(window=w).mean()` at index `i`; `none` during warm-up. -/
def avgGain (close : ℕ → ℚ) (w i : ℕ) : Option ℚ :=
  if 1 ≤ w ∧ w ≤ i + 1 then some ((∑ k in Finset.range w, gain close (i - k)) / w)
  else none

/-- Models `loss.rolling(window=w).mean()` at index `i`; `none` during warm-up. -/
def avgLoss (close : ℕ → ℚ) (w i : ℕ) : Option ℚ :=
  if 1 ≤ w ∧ w ≤ i + 1 then some ((∑ k in Finset.range w, loss close (i - k)) / w)
  else none

/-- Models `rs = avg_gain / avg_loss` with float division; NaN during warm-up. -/
def rs (close : ℕ → ℚ) (w i : ℕ) : EV :=
  match avgGain close w i, avgLoss close w i with
  | some g, some l => EV.div (EV.num g) (EV.num l)
  | _, _ => EV.nan

/-- Models `rsi = 100 - (100 / (1 + rs))` at index `i`. -/
def rsiAt (close : ℕ → ℚ) (w i : ℕ) : EV :=
  EV.sub (EV.num 100) (EV.div (EV.num 100) (EV.add (EV.num 1) (rs close w i)))

theorem gain_nonneg (close : ℕ → ℚ) (i : ℕ) : 0 ≤ gain close i := by
  cases i with
  | zero => simp [gain]
  | succ n =>
    simp only [gain]
    split <;> [linarith; exact le_refl 0]

theorem loss_nonneg (close : ℕ → ℚ) (i : ℕ) : 0 ≤ loss close i := by
  cases i with
  | zero => simp [loss]
  | succ n =>
    simp only [loss]
    split <;> [linarith; exact le_refl 0]

theorem avgGain_nonneg (close : ℕ → ℚ) (w i : ℕ) (g : ℚ)
    (h : avgGain close w i = some g) : 0 ≤ g := by
  unfold avgGain at h
  split at h
  · have hg : ((∑ k in Finset.range w, gain close (i - k)) / w : ℚ) = g :=
      Option.some.inj h
    have hs : 0 ≤ (∑ k in Finset.range w, gain close (i - k) : ℚ) :=
      Finset.sum_nonneg fun k _ => gain_nonneg close (i - k)
    have : (0:ℚ) ≤ (w:ℚ) := Nat.cast_nonneg w
    rw [← hg]
    positivity
  · exact absurd h (Option.some_ne_none g).symm

theorem avgLoss_nonneg (close : ℕ → ℚ) (w i : ℕ) (l : ℚ)
    (h : avgLoss close w i = some l) : 0 ≤ l := by
  unfold avgLoss at h
  split at h
  · have hl : ((∑ k in Finset.range w, loss close (i - k)) / w : ℚ) = l :=
      Option.some.inj h
    have hs : 0 ≤ (∑ k in Finset.range w, loss close (i - k) : ℚ) :=
      Finset.sum_nonneg fun k _ => loss_nonneg close (i - k)
    rw [← hl]
    positivity
  · exact absurd h (Option.some_ne_none l).symm

theorem gain_const (c : ℚ) (i : ℕ) : gain (fun _ => c) i = 0 := by
  cases i with
  | zero => simp [gain]
  | succ n => simp [gain]

theorem loss_const (c : ℚ) (i : ℕ) : loss (fun _ => c) i = 0 := by
  cases i with
  | zero => simp [loss]
  | succ n => simp [loss]

theorem avgGain_const (c : ℚ) (w i : ℕ) (hw : 1 ≤ w) (hi : w ≤ i + 1) :
    avgGain (fun _ => c) w i = some 0 := by
  unfold avgGain
  rw [if_pos ⟨hw, hi⟩]
  rw [Finset.sum_eq_zero fun k _ => gain_const c (i - k)]
  norm_num

theorem avgLoss_const (c : ℚ) (w i : ℕ) (hw : 1 ≤ w) (hi : w ≤ i + 1) :
    avgLoss (fun _ => c) w i = some 0 := by
  unfold avgLoss
  rw [if_pos ⟨hw, hi⟩]
  rw [Finset.sum_eq_zero fun k _ => loss_const c (i - k)]
  norm_num

/-- Claim C5 (counterexample): On the all-equal price series `5, 5, 5, …`
the RSI at bar 14 — after the 14-bar warm-up — is NaN (0/0 propagates
through `rs`), not 50 as the claim states. -/
theorem rsi_flat_is_nan_not_50 :
    rsiAt (fun _ => (5:ℚ)) 14 14 = EV.nan ∧ EV.nan ≠ EV.num 50 := by
  have hrs : rs (fun _ => (5:ℚ)) 14 14 = EV.nan := by
    unfold rs
    rw [avgGain_const 5 14 14 (by norm_num) (by norm_num),
        avgLoss_const 5 14 14 (by norm_num) (by norm_num)]
    simp [EV.div]
  refine ⟨?_, by simp⟩
  unfold rsiAt
  rw [hrs]
  simp [EV.add, EV.div, EV.sub, EV.neg]

/-- Claim C5 (amended): Once the rolling averages are defined, the RSI of
the code equals: NaN when `avg_gain = avg_loss = 0` (in particular on a
flat series), 100 when `avg_loss = 0 < avg_gain`, and the textbook
value `100 - 100/(1 + avg_gain/avg_loss)` otherwise.  A flat market
therefore produces NaN, not 50; a division-by-zero NaN *is* produced. -/
theorem rsi_edge_policy (close : ℕ → ℚ) (w i : ℕ) (g l : ℚ)
    (hg : avgGain close w i = some g) (hl : avgLoss close w i = some l) :
    rsiAt close w i =
      if l = 0 then (if g = 0 then EV.nan else EV.num 100)
      else EV.num (100 - 100 / (1 + g / l)) := by
  have hg0 : 0 ≤ g := avgGain_nonneg close w i g hg
  have hl0 : 0 ≤ l := avgLoss_nonneg close w i l hl
  have hrs : rs close w i = EV.div (EV.num g) (EV.num l) := by
    unfold rs
    rw [hg, hl]
  by_cases hlz : l = 0
  · subst hlz
    by_cases hgz : g = 0
    · subst hgz
      simp only [hrs, rsiAt, EV.div, EV.add, EV.sub, EV.neg]
      norm_num
    · have hgpos : 0 < g := lt_of_le_of_ne hg0 (Ne.symm hgz)
      simp only [hrs, rsiAt, EV.div, EV.add, EV.sub, EV.neg]
      simp [hgz, hgpos]
  · have hlpos : 0 < l := lt_of_le_of_ne hl0 (Ne.symm hlz)
    have hq : 0 ≤ g / l := div_nonneg hg0 hl0
    have hne : 1 + g / l ≠ 0 := by positivity
    simp only [hrs, rsiAt, EV.div, EV.add, EV.sub, EV.neg]
    simp only [hlz, hne, if_false, if_neg hlz, if_neg hne]
    congr 1
    ring

/-- Witness for `rsi_edge_policy` at the flat series `5, 5, 5, …`,
window 14, bar 14: both averages are 0 and the RSI is NaN. -/
theorem rsi_edge_policy_witness : rsiAt (fun _ => (5:ℚ)) 14 14 = EV.nan := by
  have h := rsi_edge_policy (fun _ => (5:ℚ)) 14 14 0 0
    (avgGain_const 5 14 14 (by norm_num) (by norm_num))
    (avgLoss_const 5 14 14 (by norm_num) (by norm_num))
  simpa using h

/-!
## Supertrend (`src/app.py`, `supertrend`, lines 19-50)

```python
hl2 = (df['High'] + df['Low']) / 2
atr = df['High'].rolling(window=period).max() - df['Low'].rolling(window=period).min()
atr = atr.rolling(window=period).mean()
upper_band = hl2 + multiplier * atr
lower_band = hl2 - multiplier * atr
in_uptrend = True
for i in range(len(df)):
    if i == 0: append(hl2[0], 1); continue
    if close[i] > upper_band[i-1]: in_uptrend = True
    elif close[i] < lower_band[i-1]: in_uptrend = False
    if in_uptrend: append(lower_band[i], 1) else: append(upper_band[i], -1)
```

The bands are NaN during warm-up (`none` here); a comparison against a
NaN band is false, as in pandas.
-/

/-- One bar of OHLC data, as the columns `supertrend` reads. -/
structure Bars where
  high : ℕ → ℚ
  low : ℕ → ℚ
  close : ℕ → ℚ

/-- Models `(High + Low) / 2`. -/
def hl2 (b : Bars) (i : ℕ) : ℚ := (b.high i + b.low i) / 2

/-- Maximum of `f` over the window `[i-p+1, i]` (meaningful when `p ≤ i+1`). -/
def windowMax (f : ℕ → ℚ) (p i : ℕ) : ℚ :=
  ((List.range p).map fun k => f (i - k)).foldr max (f i)

/-- Minimum of `f` over the window `[i-p+1, i]`. -/
def windowMin (f : ℕ → ℚ) (p i : ℕ) : ℚ :=
  ((List.range p).map fun k => f (i - k)).foldr min (f i)

/-- The range proxy `rolling_max(High,p) − rolling_min(Low,p)`, then
rolled-mean over `p` again; `none` (NaN) until index `2p−2`. -/
def atr (b : Bars) (p i : ℕ) : Option ℚ :=
  if 1 ≤ p ∧ 2 * p ≤ i + 2 then
    some ((∑ k in Finset.range p,
      (windowMax b.high p (i - k) - windowMin b.low p (i - k))) / p)
  else none

/-- Models `upper_band = hl2 + multiplier * atr`. -/
def upperBand (b : Bars) (p : ℕ) (m : ℚ) (i : ℕ) : Option ℚ :=
  (atr b p i).map fun a => hl2 b i + m * a

/-- Models `lower_band = hl2 - multiplier * atr`. -/
def lowerBand (b : Bars) (p : ℕ) (m : ℚ) (i : ℕ) : Option ℚ :=
  (atr b p i).map fun a => hl2 b i - m * a

/-- Models `c > band` with pandas semantics: false against NaN. -/
def gtB (c : ℚ) : Option ℚ → Bool
  | some x => decide (x < c)
  | none => false

/-- Models `c < band` with pandas semantics: false against NaN. -/
def ltB (c : ℚ) : Option ℚ → Bool
  | some x => decide (c < x)
  | none => false

/-- The `in_uptrend` state after processing bar `i` (initially `True`;
bar 0 performs no update). -/
def inUptrend (b : Bars) (p : ℕ) (m : ℚ) : ℕ → Bool
  | 0 => true
  | i + 1 =>
    if gtB (b.close (i + 1)) (upperBand b p m i) then true
    else if ltB (b.close (i + 1)) (lowerBand b p m i) then false
    else inUptrend b p m i

/-- Emitted trend direction at bar `i` (`+1` uptrend, `−1` downtrend). -/
def supertrendDir (b : Bars) (p : ℕ) (m : ℚ) (i : ℕ) : ℤ :=
  if inUptrend b p m i then 1 else -1

/-- Emitted supertrend line at bar `i` (`none` while the band is NaN). -/
def supertrendLine (b : Bars) (p : ℕ) (m : ℚ) : ℕ → Option ℚ
  | 0 => some (hl2 b 0)
  | i + 1 =>
    if inUptrend b p m (i + 1) then lowerBand b p m (i + 1)
    else upperBand b p m (i + 1)

theorem windowMax_ge (f : ℕ → ℚ) (p i : ℕ) : f i ≤ windowMax f p i := by
  unfold windowMax
  induction (List.range p).map (fun k => f (i - k)) with
  | nil => exact le_refl _
  | cons x xs ih => exact le_trans ih (le_max_right x _)

theorem windowMin_le (f : ℕ → ℚ) (p i : ℕ) : windowMin f p i ≤ f i := by
  unfold windowMin
  induction (List.range p).map (fun k => f (i - k)) with
  | nil => exact le_refl _
  | cons x xs ih => exact le_trans (min_le_right x _) ih

theorem atr_nonneg (b : Bars) (p i : ℕ) (a : ℚ)
    (hb : ∀ j, b.low j ≤ b.high j) (h : atr b p i = some a) : 0 ≤ a := by
  unfold atr at h
  split at h
  · have ha : ((∑ k in Finset.range p,
        (windowMax b.high p (i - k) - windowMin b.low p (i - k))) / p : ℚ) = a :=
      Option.some.inj h
    have hs : 0 ≤ (∑ k in Finset.range p,
        (windowMax b.high p (i - k) - windowMin b.low p (i - k)) : ℚ) := by
      refine Finset.sum_nonneg fun k _ => ?_
      have h1 : windowMin b.low p (i - k) ≤ b.low (i - k) := windowMin_le _ _ _
      have h2 : b.high (i - k) ≤ windowMax b.high p (i - k) := windowMax_ge _ _ _
      have h3 : b.low (i - k) ≤ b.high (i - k) := hb (i - k)
      linarith
    rw [← ha]
    positivity
  · exact absurd h (Option.some_ne_none a).symm

/-- With valid OHLC data and a nonnegative multiplier the lower band
never exceeds the upper band, so the two flip conditions are mutually
exclusive. -/
theorem not_gt_of_lt_band (b : Bars) (p : ℕ) (m : ℚ) (i : ℕ)
    (hm : 0 ≤ m) (hb : ∀ j, b.low j ≤ b.high j)
    (h : ltB (b.close (i + 1)) (lowerBand b p m i) = true) :
    gtB (b.close (i + 1)) (upperBand b p m i) = false := by
  unfold ltB at h
  unfold gtB
  cases ha : atr b p i with
  | none => simp [upperBand, ha]
  | some a =>
    have h0 : 0 ≤ a := atr_nonneg b p i a hb ha
    simp only [lowerBand, ha, Option.map_some'] at h
    simp only [upperBand, ha, Option.map_some']
    have hlt : b.close (i + 1) < hl2 b i - m * a := of_decide_eq_true h
    have : ¬ (hl2 b i + m * a < b.close (i + 1)) := by nlinarith
    simpa using this

/-- Claim C6 (confirmed): For any valid OHLC series (`low ≤ high` per bar)
and nonnegative multiplier: bar 0 emits direction `+1` and line `hl2`;
every emitted direction is `+1` or `−1`; after bar 0 the emitted line is
the lower band in an uptrend and the upper band in a downtrend; the
state flips to downtrend exactly when close drops below the previous
bar's lower band, flips to uptrend exactly when close rises above the
previous bar's upper band, and otherwise holds. -/
theorem supertrend_recurrence (b : Bars) (p : ℕ) (m : ℚ) (i : ℕ)
    (hm : 0 ≤ m) (hb : ∀ j, b.low j ≤ b.high j) :
    supertrendDir b p m 0 = 1 ∧
    supertrendLine b p m 0 = some (hl2 b 0) ∧
    (supertrendDir b p m i = 1 ∨ supertrendDir b p m i = -1) ∧
    (supertrendLine b p m (i + 1) =
      if supertrendDir b p m (i + 1) = 1 then lowerBand b p m (i + 1)
      else upperBand b p m (i + 1)) ∧
    (supertrendDir b p m i = 1 →
      (supertrendDir b p m (i + 1) = -1 ↔
        ltB (b.close (i + 1)) (lowerBand b p m i) = true)) ∧
    (supertrendDir b p m i = -1 →
      (supertrendDir b p m (i + 1) = 1 ↔
        gtB (b.close (i + 1)) (upperBand b p m i) = true)) ∧
    (gtB (b.close (i + 1)) (upperBand b p m i) = false →
      ltB (b.close (i + 1)) (lowerBand b p m i) = false →
      supertrendDir b p m (i + 1) = supertrendDir b p m i) := by
  refine ⟨rfl, rfl, ?_, ?_, ?_, ?_, ?_⟩
  · unfold supertrendDir
    split
    · exact Or.inl rfl
    · exact Or.inr rfl
  · unfold supertrendLine supertrendDir
    by_cases h : inUptrend b p m (i + 1)
    · simp [h]
    · simp [h]
  · intro hup
    unfold supertrendDir at hup ⊢
    by_cases hu : inUptrend b p m i
    · constructor
      · intro hflip
        by_cases hgt : gtB (b.close (i + 1)) (upperBand b p m i)
        · exfalso
          simp only [inUptrend, hgt, if_true] at hflip
          simp at hflip
        · by_cases hlt : ltB (b.close (i + 1)) (lowerBand b p m i)
          · exact hlt
          · exfalso
            simp only [inUptrend, hgt, hlt] at hflip
            simp [hu] at hflip
      · intro hlt
        have hgt := not_gt_of_lt_band b p m i hm hb hlt
        simp [inUptrend, hgt, hlt]
    · simp [hu] at hup
  · intro hdn
    unfold supertrendDir at hdn ⊢
    by_cases hu : inUptrend b p m i
    · simp [hu] at hdn
    · constructor
      · intro hflip
        by_cases hgt : gtB (b.close (i + 1)) (upperBand b p m i)
        · exact hgt
        · exfalso
          by_cases hlt : ltB (b.close (i + 1)) (lowerBand b p m i)
          · simp only [inUptrend, hgt, hlt] at hflip
            simp at hflip
          · simp only [inUptrend, hgt, hlt] at hflip
            simp [hu] at hflip
      · intro hgt
        simp [inUptrend, hgt]
  · intro hgt hlt
    unfold supertrendDir
    simp only [inUptrend, hgt, hlt]
    simp

/-- Witness for `supertrend_recurrence` on the constant series
`high = 2, low = 1, close = 3` with the default `period = 10`,
`multiplier = 3`, at bar 5. -/
theorem supertrend_recurrence_witness :
    supertrendDir ⟨fun _ => 2, fun _ => 1, fun _ => 3⟩ 10 3 0 = 1 ∧
    supertrendLine ⟨fun _ => 2, fun _ => 1, fun _ => 3⟩ 10 3 0 =
      some (hl2 ⟨fun _ => 2, fun _ => 1, fun _ => 3⟩ 0) ∧
    (supertrendDir ⟨fun _ => 2, fun _ => 1, fun _ => 3⟩ 10 3 5 = 1 ∨
     supertrendDir ⟨fun _ => 2, fun _ => 1, fun _ => 3⟩ 10 3 5 = -1) ∧
    (supertrendLine ⟨fun _ => 2, fun _ => 1, fun _ => 3⟩ 10 3 6 =
      if supertrendDir ⟨fun _ => 2, fun _ => 1, fun _ => 3⟩ 10 3 6 = 1 then
        lowerBand ⟨fun _ => 2, fun _ => 1, fun _ => 3⟩ 10 3 6
      else upperBand ⟨fun _ => 2, fun _ => 1, fun _ => 3⟩ 10 3 6) ∧
    (supertrendDir ⟨fun _ => 2, fun _ => 1, fun _ => 3⟩ 10 3 5 = 1 →
      (supertrendDir ⟨fun _ => 2, fun _ => 1, fun _ => 3⟩ 10 3 6 = -1 ↔
        ltB 3 (lowerBand ⟨fun _ => 2, fun _ => 1, fun _ => 3⟩ 10 3 5) = true)) ∧
    (supertrendDir ⟨fun _ => 2, fun _ => 1, fun _ => 3⟩ 10 3 5 = -1 →
      (supertrendDir ⟨fun _ => 2, fun _ => 1, fun _ => 3⟩ 10 3 6 = 1 ↔
        gtB 3 (upperBand ⟨fun _ => 2, fun _ => 1, fun _ => 3⟩ 10 3 5) = true)) ∧
    (gtB 3 (upperBand ⟨fun _ => 2, fun _ => 1, fun _ => 3⟩ 10 3 5) = false →
      ltB 3 (lowerBand ⟨fun _ => 2, fun _ => 1, fun _ => 3⟩ 10 3 5) = false →
      supertrendDir ⟨fun _ => 2, fun _ => 1, fun _ => 3⟩ 10 3 6 =
        supertrendDir ⟨fun _ => 2, fun _ => 1, fun _ => 3⟩ 10 3 5) :=
  supertrend_recurrence ⟨fun _ => 2, fun _ => 1, fun _ => 3⟩ 10 3 5
    (by norm_num) (fun j => by norm_num)

/-!
## Volume profile (`src/app.py`, `volume_profile`, lines 117-138)

```python
price_min = close.min(); price_max = close.max()
price_levels = np.linspace(price_min, price_max, bins)
for i in range(len(price_levels) - 1):
    level_low = price_levels[i]; level_high = price_levels[i + 1]
    mask = (close >= level_low) & (close < level_high)
    level_volume = volume[mask].sum()
    volume_at_price.append({'price': (level_low+level_high)/2, 'volume': level_volume})
```

`np.linspace(a, b, bins)` yields the `bins` points `a + k·(b−a)/(bins−1)`,
so the loop builds `bins − 1` half-open buckets.
-/

/-- Models `close.min()` of a nonempty series (0 for an empty one). -/
def listMin : List ℚ → ℚ
  | [] => 0
  | h :: t => t.foldl min h

/-- Models `close.max()` of a nonempty series (0 for an empty one). -/
def listMax : List ℚ → ℚ
  | [] => 0
  | h :: t => t.foldl max h

/-- The `k`-th point of `np.linspace(a, b, bins)`. -/
def lev (a b : ℚ) (bins k : ℕ) : ℚ := a + k * ((b - a) / ((bins : ℚ) - 1))

/-- Models `volume[mask].sum()` for the mask `lo ≤ close < hi`, over the
bar list zipped as (close, volume) pairs. -/
def levelVolumeP (pairs : List (ℚ × ℚ)) (lo hi : ℚ) : ℚ :=
  (pairs.map fun cv => if lo ≤ cv.1 ∧ cv.1 < hi then cv.2 else 0).sum

/-- Models `volume_profile(close, volume, bins)`: list of
(price midpoint, total volume) per bucket. -/
def volume_profile (close volume : List ℚ) (bins : ℕ) : List (ℚ × ℚ) :=
  (List.range (bins - 1)).map fun i =>
    ((lev (listMin close) (listMax close) bins i +
        lev (listMin close) (listMax close) bins (i + 1)) / 2,
     levelVolumeP (close.zip volume)
       (lev (listMin close) (listMax close) bins i)
       (lev (listMin close) (listMax close) bins (i + 1)))

/-- Claim C7 (counterexample): With all closes equal (`close = [5,5]`,
`volume = [10,20]`, `bins = 10`) every bucket is the empty half-open
interval `[5,5)`, so the bucket volumes sum to 0 — not to the input
total 30, and not "all volume in a single bucket" as the claim states. -/
theorem volume_profile_flat_loses_volume :
    ((volume_profile [5, 5] [10, 20] 10).map Prod.snd).sum = 0 ∧
    (0:ℚ) ≠ 10 + 20 := by
  constructor
  · norm_num [volume_profile, listMin, listMax, lev, levelVolumeP,
      List.range_succ]
  · norm_num

theorem foldl_min_le (a : ℚ) (t : List ℚ) : t.foldl min a ≤ a := by
  induction t generalizing a with
  | nil => exact le_refl a
  | cons x xs ih => exact le_trans (ih (min a x)) (min_le_left a x)

theorem le_foldl_max (a : ℚ) (t : List ℚ) : a ≤ t.foldl max a := by
  induction t generalizing a with
  | nil => exact le_refl a
  | cons x xs ih => exact le_trans (le_max_left a x) (ih (max a x))

theorem listMin_le_listMax (l : List ℚ) : listMin l ≤ listMax l := by
  cases l with
  | nil => exact le_refl 0
  | cons h t => exact le_trans (foldl_min_le h t) (le_foldl_max h t)

theorem lev_monotone (a b : ℚ) (bins : ℕ) (hab : a ≤ b) (hbins : 2 ≤ bins) :
    Monotone (lev a b bins) := by
  intro j k hjk
  unfold lev
  have hb1 : (0:ℚ) < (bins : ℚ) - 1 := by
    have : (2:ℚ) ≤ (bins : ℚ) := by exact_mod_cast hbins
    linarith
  have hstep : 0 ≤ (b - a) / ((bins : ℚ) - 1) :=
    div_nonneg (by linarith) (le_of_lt hb1)
  have : (j : ℚ) ≤ (k : ℚ) := by exact_mod_cast hjk
  nlinarith

theorem lev_zero (a b : ℚ) (bins : ℕ) : lev a b bins 0 = a := by
  simp [lev]

theorem lev_last (a b : ℚ) (bins : ℕ) (hbins : 2 ≤ bins) :
    lev a b bins (bins - 1) = b := by
  unfold lev
  have h1 : (1:ℕ) ≤ bins := le_trans (by norm_num) hbins
  have hcast : ((bins - 1 : ℕ) : ℚ) = (bins : ℚ) - 1 := by
    push_cast [Nat.cast_sub h1]
    ring
  have hb1 : ((bins : ℚ) - 1) ≠ 0 := by
    have : (2:ℚ) ≤ (bins : ℚ) := by exact_mod_cast hbins
    intro h
    linarith
  rw [hcast, mul_div_cancel₀ _ hb1]
  ring

/-- Consecutive half-open intervals of a monotone level sequence tile
the whole range: the indicator contributions telescope. -/
theorem indicator_telescope (levf : ℕ → ℚ) (mono : Monotone levf)
    (c v : ℚ) (n : ℕ) :
    (∑ i in Finset.range n, if levf i ≤ c ∧ c < levf (i + 1) then v else 0) =
      if levf 0 ≤ c ∧ c < levf n then v else 0 := by
  induction n with
  | zero =>
    simp only [Finset.range_zero, Finset.sum_empty]
    rw [if_neg]
    rintro ⟨h1, h2⟩
    exact absurd (lt_of_le_of_lt h1 h2) (lt_irrefl _)
  | succ n ih =>
    rw [Finset.sum_range_succ, ih]
    by_cases hc : c < levf n
    · have hlast : ¬ (levf n ≤ c ∧ c < levf (n + 1)) :=
        fun h => absurd hc (not_lt.mpr h.1)
      have hn1 : c < levf (n + 1) := lt_of_lt_of_le hc (mono (Nat.le_succ n))
      rw [if_neg hlast]
      by_cases h0 : levf 0 ≤ c
      · rw [if_pos ⟨h0, hc⟩, if_pos ⟨h0, hn1⟩]
        ring
      · have hA : ¬ (levf 0 ≤ c ∧ c < levf n) := fun h => h0 h.1
        have hB : ¬ (levf 0 ≤ c ∧ c < levf (n + 1)) := fun h => h0 h.1
        rw [if_neg hA, if_neg hB]
        ring
    · push_neg at hc
      have h0 : levf 0 ≤ c := le_trans (mono (Nat.zero_le n)) hc
      have hfirst : ¬ (levf 0 ≤ c ∧ c < levf n) :=
        fun h => absurd h.2 (not_lt.mpr hc)
      rw [if_neg hfirst]
      by_cases hn1 : c < levf (n + 1)
      · rw [if_pos ⟨hc, hn1⟩, if_pos ⟨h0, hn1⟩]
        ring
      · have hA : ¬ (levf n ≤ c ∧ c < levf (n + 1)) := fun h => hn1 h.2
        have hB : ¬ (levf 0 ≤ c ∧ c < levf (n + 1)) := fun h => hn1 h.2
        rw [if_neg hA, if_neg hB]
        ring

theorem levelVolumeP_telescope (pairs : List (ℚ × ℚ)) (levf : ℕ → ℚ)
    (mono : Monotone levf) (n : ℕ) :
    (∑ i in Finset.range n, levelVolumeP pairs (levf i) (levf (i + 1))) =
      levelVolumeP pairs (levf 0) (levf n) := by
  induction pairs with
  | nil => simp [levelVolumeP]
  | cons p l ih =>
    have hsplit : ∀ lo hi : ℚ, levelVolumeP (p :: l) lo hi =
        (if lo ≤ p.1 ∧ p.1 < hi then p.2 else 0) + levelVolumeP l lo hi := by
      intro lo hi
      simp [levelVolumeP]
    simp only [hsplit]
    rw [Finset.sum_add_distrib, ih, indicator_telescope levf mono p.1 p.2 n]

theorem sum_list_range_map (f : ℕ → ℚ) (n : ℕ) :
    ((List.range n).map f).sum = ∑ i in Finset.range n, f i := by
  induction n with
  | zero => simp
  | succ n ih => rw [List.range_succ, List.map_append, List.sum_append,
      Finset.sum_range_succ, ih]; simp

/-- Claim C7 (amended): `volume_profile` builds `bins − 1` (not `bins`)
equal-width half-open buckets tiling `[min(close), max(close))`, and
the bucket volumes sum to the volume of the bars whose close lies in
that half-open range: bars whose close equals the maximum are dropped.
In particular, when all closes are equal the range is empty and every
bucket (and their sum) is 0. -/
theorem volume_profile_partition (close volume : List ℚ) (bins : ℕ)
    (hne : close ≠ []) (hbins : 2 ≤ bins) :
    (volume_profile close volume bins).length = bins - 1 ∧
    ((volume_profile close volume bins).map Prod.snd).sum =
      levelVolumeP (close.zip volume) (listMin close) (listMax close) := by
  constructor
  · simp [volume_profile]
  · have hab : listMin close ≤ listMax close := listMin_le_listMax close
    have mono := lev_monotone (listMin close) (listMax close) bins hab hbins
    unfold volume_profile
    rw [List.map_map]
    have hcomp : (Prod.snd ∘ fun i =>
        ((lev (listMin close) (listMax close) bins i +
            lev (listMin close) (listMax close) bins (i + 1)) / 2,
         levelVolumeP (close.zip volume)
           (lev (listMin close) (listMax close) bins i)
           (lev (listMin close) (listMax close) bins (i + 1)))) =
        fun i => levelVolumeP (close.zip volume)
          (lev (listMin close) (listMax close) bins i)
          (lev (listMin close) (listMax close) bins (i + 1)) := rfl
    rw [hcomp, sum_list_range_map,
      levelVolumeP_telescope (close.zip volume) _ mono (bins - 1),
      lev_zero, lev_last (listMin close) (listMax close) bins hbins]

/-- Witness for `volume_profile_partition` at `close = [1,2]`,
`volume = [10,20]`, `bins = 3`: two buckets, total bucket volume 10
(the bar at the maximum close 2 is dropped). -/
theorem volume_profile_partition_witness :
    (volume_profile [1, 2] [10, 20] 3).length = 2 ∧
    ((volume_profile [1, 2] [10, 20] 3).map Prod.snd).sum =
      levelVolumeP ([(1:ℚ), 2].zip [10, 20]) (listMin [1, 2]) (listMax [1, 2]) :=
  volume_profile_partition [1, 2] [10, 20] 3 (by simp) (by norm_num)

/-!
## The screening engine (`src/utils/screener.py`)

A `StockScreener` holds a symbol universe and a cache; each screen
iterates the universe, reads the cached per-symbol payload
(`_get_stock_data_cached`, skipping symbols whose fetch failed),
applies its predicate set, scores, sorts and returns dict rows.  The
cache/provider state is modelled as a pure snapshot
`data : String → Option StockData`; `none` models a failed fetch
(`if not stock_data: continue`).

Python truthiness matters throughout: a filter guarded by
`if field and ...` is skipped when the field is `None` *or* `0`.
Numeric fields read with `.get(key)` are `Option ℚ` (`none` = `None`).
`TechData` holds the last-row values the screens read from the
indicator frame; `tech = none` models an empty frame.
-/

/-- Last-row technical values read by the screens. -/
structure TechData where
  close : ℚ := 0
  rsi : Option ℚ := none
  sma20 : Option ℚ := none
  sma50 : Option ℚ := none
  macd : Option ℚ := none
  macd_signal : Option ℚ := none
  volume : ℚ := 0
  avg_volume : Option ℚ := none
  high20_prev : Option ℚ := none
  deriving DecidableEq

/-- One cached per-symbol payload (fundamental dict fields used by the
screens, flattened, plus the technical frame and current price). -/
structure StockData where
  market_cap : ℚ := 0
  sector : Option String := none
  pe : Option ℚ := none
  pb : Option ℚ := none
  roe : Option ℚ := none
  profit_margin : Option ℚ := none
  de : Option ℚ := none
  cr : Option ℚ := none
  revenue_growth : Option ℚ := none
  earnings_growth : Option ℚ := none
  dividend_yield : Option ℚ := none
  tech : Option TechData := none
  current_price : ℚ := 0
  deriving DecidableEq

/-- Python truthiness of an optional number: `None` and `0` are falsy. -/
def truthy : Option ℚ → Bool
  | none => false
  | some q => q != 0

/-!
### `calculate_financial_score` (`src/utils/fundamentals.py`, lines 107-246)

The five components sum to at most 25+25+25+20+5 = 100, so
`percentage = total/100*100` equals the raw total.
-/

/-- Valuation points from the PE ratio (`if pe_ratio:` guard). -/
def peScore : Option ℚ → ℚ
  | none => 0
  | some p =>
    if p = 0 then 0
    else if 10 ≤ p ∧ p ≤ 25 then 15
    else if (5 ≤ p ∧ p < 10) ∨ (25 < p ∧ p ≤ 35) then 10
    else if p < 5 ∨ 35 < p then 5
    else 0

/-- Valuation points from price-to-book. -/
def pbScore : Option ℚ → ℚ
  | none => 0
  | some p =>
    if p = 0 then 0
    else if 1 ≤ p ∧ p ≤ 3 then 10
    else if ((1:ℚ)/2 ≤ p ∧ p < 1) ∨ (3 < p ∧ p ≤ 5) then 5
    else 0

/-- Profitability points from return on equity. -/
def roeScore : Option ℚ → ℚ
  | none => 0
  | some r =>
    if r = 0 then 0
    else if (15:ℚ)/100 ≤ r then 15
    else if (10:ℚ)/100 ≤ r then 10
    else if (5:ℚ)/100 ≤ r then 5
    else 0

/-- Profitability points from profit margin. -/
def pmScore : Option ℚ → ℚ
  | none => 0
  | some m =>
    if m = 0 then 0
    else if (15:ℚ)/100 ≤ m then 10
    else if (10:ℚ)/100 ≤ m then 7
    else if (5:ℚ)/100 ≤ m then 5
    else 0

/-- Financial-health points from debt-to-equity (explicit
`is not None` check in the source, so 0 scores the top bracket). -/
def deScore : Option ℚ → ℚ
  | none => 0
  | some d =>
    if d ≤ (1:ℚ)/2 then 15
    else if d ≤ 1 then 10
    else if d ≤ 2 then 5
    else 0

/-- Financial-health points from the current ratio. -/
def crScore : Option ℚ → ℚ
  | none => 0
  | some c =>
    if c = 0 then 0
    else if (3:ℚ)/2 ≤ c then 10
    else if 1 ≤ c then 7
    else 0

/-- Growth points (same brackets for revenue and earnings growth). -/
def growthScore1 : Option ℚ → ℚ
  | none => 0
  | some g =>
    if g = 0 then 0
    else if (20:ℚ)/100 ≤ g then 10
    else if (10:ℚ)/100 ≤ g then 7
    else if (5:ℚ)/100 ≤ g then 5
    else 0

/-- Dividend points (`if dividend_yield and dividend_yield > 0`). -/
def divScore : Option ℚ → ℚ
  | none => 0
  | some d =>
    if 0 < d then
      (if (2:ℚ)/100 ≤ d ∧ d ≤ (6:ℚ)/100 then 5
       else if 0 < d then 3 else 0)
    else 0

/-- Models `calculate_financial_score(fundamental)['percentage']`. -/
def calculate_financial_score (s : StockData) : ℚ :=
  peScore s.pe + pbScore s.pb + roeScore s.roe + pmScore s.profit_margin +
  deScore s.de + crScore s.cr + growthScore1 s.revenue_growth +
  growthScore1 s.earnings_growth + divScore s.dividend_yield

/-!
### Stable sorting

Python's `list.sort(key=..., reverse=True)` is a stable sort; any
stable sort by the same key yields the same list, so a stable
insertion sort models it exactly.
-/

/-- Insert into a descending-by-key list, after all strictly larger or
equal keys (stability: an element inserted from the left of the input
precedes equal-key elements to its right). -/
def insertDescBy (key : α → ℚ) (x : α) : List α → List α
  | [] => [x]
  | y :: ys => if key x < key y then y :: insertDescBy key x ys else x :: y :: ys

/-- Stable sort, descending by key (models `sort(key=..., reverse=True)`). -/
def sortDescBy (key : α → ℚ) : List α → List α
  | [] => []
  | x :: xs => insertDescBy key x (sortDescBy key xs)

/-- Insert into an ascending-by-key list. -/
def insertAscBy (key : α → ℚ) (x : α) : List α → List α
  | [] => [x]
  | y :: ys => if key y < key x then y :: insertAscBy key x ys else x :: y :: ys

/-- Stable sort, ascending by key (models `sort(key=...)`). -/
def sortAscBy (key : α → ℚ) : List α → List α
  | [] => []
  | x :: xs => insertAscBy key x (sortAscBy key xs)

/-!
### `fundamental_screen` (lines 298-405)
-/

/-- Fundamental criteria after merging with the defaults dict
(lines 304-315).  `max_market_cap = none` models `float('inf')`. -/
structure FundCriteria where
  min_market_cap : ℚ := 0
  max_market_cap : Option ℚ := none
  min_pe : ℚ := 0
  max_pe : ℚ := 50
  min_roe : ℚ := 0
  max_de : ℚ := 2
  min_profit_margin : ℚ := 0
  min_revenue_growth : ℚ := -(1:ℚ)/2
  dividend_yield : Bool := false
  sectors : Option (List String) := none
  deriving DecidableEq

/-- Market-cap filter: `min ≤ market_cap ≤ max` (unconditional). -/
def mcFilter (c : FundCriteria) (s : StockData) : Bool :=
  decide (c.min_market_cap ≤ s.market_cap) &&
  (match c.max_market_cap with
   | none => true
   | some M => decide (s.market_cap ≤ M))

/-- PE filter: `if pe_ratio and not (min <= pe <= max): continue` —
skipped entirely when the field is `None` or `0`. -/
def peFilter (c : FundCriteria) (s : StockData) : Bool :=
  match s.pe with
  | none => true
  | some p => if p = 0 then true else decide (c.min_pe ≤ p ∧ p ≤ c.max_pe)

/-- ROE filter: `if roe and roe < min_roe: continue`. -/
def roeFilter (c : FundCriteria) (s : StockData) : Bool :=
  match s.roe with
  | none => true
  | some r => if r = 0 then true else decide (c.min_roe ≤ r)

/-- Debt-to-equity filter: `if debt_to_equity and debt_to_equity > max`. -/
def deFilter (c : FundCriteria) (s : StockData) : Bool :=
  match s.de with
  | none => true
  | some d => if d = 0 then true else decide (d ≤ c.max_de)

/-- Profit-margin filter. -/
def pmFilter (c : FundCriteria) (s : StockData) : Bool :=
  match s.profit_margin with
  | none => true
  | some m => if m = 0 then true else decide (c.min_profit_margin ≤ m)

/-- Revenue-growth filter. -/
def rgFilter (c : FundCriteria) (s : StockData) : Bool :=
  match s.revenue_growth with
  | none => true
  | some g => if g = 0 then true else decide (c.min_revenue_growth ≤ g)

/-- Dividend filter: when enabled requires a strictly positive yield
(`div_yield = dividend.get('dividend_yield', 0)`). -/
def divFilter (c : FundCriteria) (s : StockData) : Bool :=
  if c.dividend_yield then
    match s.dividend_yield with
    | none => false
    | some d => decide (0 < d)
  else true

/-- Sector filter (`if screen_criteria['sectors']:` — `None` and the
empty list are falsy and disable the filter). -/
def secFilter (c : FundCriteria) (s : StockData) : Bool :=
  match c.sectors with
  | some (h :: t) => decide (s.sector.getD "" ∈ h :: t)
  | _ => true

/-- Conjunction of all fundamental filters, in source order. -/
def passesFund (c : FundCriteria) (s : StockData) : Bool :=
  mcFilter c s && peFilter c s && roeFilter c s && deFilter c s &&
  pmFilter c s && rgFilter c s && divFilter c s && secFilter c s

/-- A row of `fundamental_screen`'s output (restricted to the fields the
verified properties observe). -/
structure FundRow where
  symbol : String
  pe : Option ℚ
  financial_score : ℚ
  deriving DecidableEq

/-- The appended rows, in universe order, before the final sort. -/
def fundRows (univ : List String) (data : String → Option StockData)
    (c : FundCriteria) : List FundRow :=
  ((univ.filterMap fun sym => (data sym).map fun s => (sym, s)).filter
      fun p => passesFund c p.2).map
    fun p => { symbol := p.1, pe := p.2.pe,
               financial_score := calculate_financial_score p.2 }

/-- Models `fundamental_screen`: filter, score, stable-sort descending by
`financial_score`. -/
def fundamental_screen (univ : List String)
    (data : String → Option StockData) (c : FundCriteria) : List FundRow :=
  sortDescBy (fun r => r.financial_score) (fundRows univ data c)

/-!
### `technical_screen` (lines 407-530)
-/

/-- Technical criteria after merging with the defaults (lines 413-422). -/
structure TechCriteria where
  rsi_min : ℚ := 30
  rsi_max : ℚ := 70
  price_above_sma20 : Bool := false
  price_above_sma50 : Bool := false
  macd_bullish : Bool := false
  volume_spike : Bool := false
  breakout_pattern : Bool := false
  min_volume : ℚ := 0
  deriving DecidableEq

/-- RSI filter: `if rsi and not (rsi_min <= rsi <= rsi_max): continue`. -/
def rsiFilter (c : TechCriteria) (t : TechData) : Bool :=
  match t.rsi with
  | none => true
  | some r => if r = 0 then true else decide (c.rsi_min ≤ r ∧ r ≤ c.rsi_max)

/-- Models `if price_above_sma20 and sma20 and current_price <= sma20`. -/
def sma20Filter (c : TechCriteria) (t : TechData) : Bool :=
  if c.price_above_sma20 then
    match t.sma20 with
    | none => true
    | some m => if m = 0 then true else decide (m < t.close)
  else true

/-- Models `if price_above_sma50 and sma50 and current_price <= sma50`. -/
def sma50Filter (c : TechCriteria) (t : TechData) : Bool :=
  if c.price_above_sma50 then
    match t.sma50 with
    | none => true
    | some m => if m = 0 then true else decide (m < t.close)
  else true

/-- Models `if macd_bullish and macd and macd_signal: if macd <= macd_signal`. -/
def macdFilter (c : TechCriteria) (t : TechData) : Bool :=
  if c.macd_bullish then
    match t.macd, t.macd_signal with
    | some m, some sg =>
      if m = 0 ∨ sg = 0 then true else decide (sg < m)
    | _, _ => true
  else true

/-- Models `if volume_spike and avg_volume: if volume / avg_volume < 1.5`. -/
def volspikeFilter (c : TechCriteria) (t : TechData) : Bool :=
  if c.volume_spike then
    match t.avg_volume with
    | none => true
    | some a => if a = 0 then true else decide ((3:ℚ)/2 ≤ t.volume / a)
  else true

/-- Models `if volume < min_volume: continue`. -/
def minvolFilter (c : TechCriteria) (t : TechData) : Bool :=
  decide (c.min_volume ≤ t.volume)

/-- Breakout filter: when enabled requires `current_price > high_20`
(the previous bar's 20-day rolling high); an undefined rolling high
compares false and excludes the symbol. -/
def breakoutFilter (c : TechCriteria) (t : TechData) : Bool :=
  if c.breakout_pattern then
    match t.high20_prev with
    | none => false
    | some h => decide (h < t.close)
  else true

/-- Conjunction of all technical filters, in source order. -/
def passesTech (c : TechCriteria) (t : TechData) : Bool :=
  rsiFilter c t && sma20Filter c t && sma50Filter c t && macdFilter c t &&
  volspikeFilter c t && minvolFilter c t && breakoutFilter c t

/-- Models `technical_score_pct` (lines 483-510): earned points over total
indicator points (the RSI's 20-point total counts only when RSI is
truthy; the other 60 points are always counted). -/
def techScorePct (t : TechData) : ℚ :=
  let rsiPts : ℚ :=
    match t.rsi with
    | none => 0
    | some r =>
      if r = 0 then 0
      else if 40 ≤ r ∧ r ≤ 60 then 20
      else if 30 ≤ r ∧ r ≤ 70 then 15
      else 0
  let rsiTot : ℚ :=
    match t.rsi with
    | none => 0
    | some r => if r = 0 then 0 else 20
  let sma20Pts : ℚ :=
    match t.sma20 with
    | none => 0
    | some m => if m ≠ 0 ∧ m < t.close then 15 else 0
  let sma50Pts : ℚ :=
    match t.sma50 with
    | none => 0
    | some m => if m ≠ 0 ∧ m < t.close then 15 else 0
  let macdPts : ℚ :=
    match t.macd, t.macd_signal with
    | some m, some sg => if m ≠ 0 ∧ sg ≠ 0 ∧ sg < m then 20 else 0
    | _, _ => 0
  let volPts : ℚ :=
    match t.avg_volume with
    | none => 0
    | some a => if a ≠ 0 ∧ (6:ℚ)/5 < t.volume / a then 10 else 0
  let ts := rsiPts + sma20Pts + sma50Pts + macdPts + volPts
  let ti := rsiTot + 60
  if 0 < ti then ts / ti * 100 else 0

/-- A row of `technical_screen`'s output (fields the claims observe). -/
structure TechRow where
  symbol : String
  rsi : Option ℚ
  technical_score : ℚ
  deriving DecidableEq

/-- The appended technical rows, in universe order, before the sort.
A symbol is skipped when its fetch failed or its frame is empty. -/
def techRows (univ : List String) (data : String → Option StockData)
    (c : TechCriteria) : List TechRow :=
  ((univ.filterMap fun sym =>
      (data sym).bind fun s => s.tech.map fun t => (sym, t)).filter
      fun p => passesTech c p.2).map
    fun p => { symbol := p.1, rsi := p.2.rsi,
               technical_score := techScorePct p.2 }

/-- Models `technical_screen`: filter, score, stable-sort descending by
`technical_score`. -/
def technical_screen (univ : List String)
    (data : String → Option StockData) (c : TechCriteria) : List TechRow :=
  sortDescBy (fun r => r.technical_score) (techRows univ data c)

/-!
### `combined_screen` (lines 532-570)
-/

/-- The weights dict; `combined_screen` defaults it to
`{'fundamental': 0.6, 'technical': 0.4}` when the argument is `None`. -/
structure ScreenWeights where
  fundamental : ℚ
  technical : ℚ
  deriving DecidableEq

/-- A combined row.  `technical_score = none` when the symbol was absent
from the technical results (the merged dict then lacks that key and
`tech_result.get('technical_score', 0)` contributed 0). -/
structure CombRow where
  symbol : String
  financial_score : ℚ
  technical_score : Option ℚ
  combined_score : ℚ
  deriving DecidableEq

/-- Models `technical_lookup = {r['symbol']: r for r in technical_results}` —
on duplicate symbols the last row wins. -/
def techLookup (l : List TechRow) (sym : String) : Option TechRow :=
  l.reverse.find? fun (r : TechRow) => r.symbol == sym

/-- The combined rows before the final sort: one per fundamental row
(left join on the technical lookup). -/
def combRows (fr : List FundRow) (tr : List TechRow)
    (w : ScreenWeights) : List CombRow :=
  fr.map fun f =>
    { symbol := f.symbol
      financial_score := f.financial_score
      technical_score := (techLookup tr f.symbol).map fun x => x.technical_score
      combined_score := f.financial_score * w.fundamental +
        ((techLookup tr f.symbol).map fun x => x.technical_score).getD 0 *
          w.technical }

/-- Models `combined_screen(fundamental_criteria, technical_criteria, weights)`. -/
def combined_screen (univ : List String)
    (data : String → Option StockData) (fc : FundCriteria)
    (tc : TechCriteria) (weights : Option ScreenWeights) : List CombRow :=
  let w := weights.getD { fundamental := (3:ℚ)/5, technical := (2:ℚ)/5 }
  sortDescBy (fun r => r.combined_score)
    (combRows (fundamental_screen univ data fc)
      (technical_screen univ data tc) w)

/-!
### `rsi_screen` (lines 63-115)
-/

/-- The `rsi_condition` criterion. -/
inductive RsiCond : Type
  | oversold : RsiCond
  | overbought : RsiCond
  | inRange : RsiCond
  deriving DecidableEq

/-- RSI-screen criteria with their defaults (lines 69-71). -/
structure RsiCriteria where
  rsi_low : ℚ := 30
  rsi_high : ℚ := 70
  rsi_condition : RsiCond := RsiCond.oversold
  deriving DecidableEq

/-- Python's banker's rounding (`round`): round half to even. -/
def roundHalfEven (x : ℚ) : ℤ :=
  let n := ⌊x⌋
  let f := x - n
  if f < 1/2 then n
  else if 1/2 < f then n + 1
  else if n % 2 = 0 then n else n + 1

/-- Models `round(q, 2)`. -/
def round2 (q : ℚ) : ℚ := (roundHalfEven (q * 100) : ℚ) / 100

/-- The `match_condition` test (lines 86-92). -/
def rsiMatch (c : RsiCriteria) (r : ℚ) : Bool :=
  match c.rsi_condition with
  | RsiCond.oversold => decide (r ≤ c.rsi_low)
  | RsiCond.overbought => decide (c.rsi_high ≤ r)
  | RsiCond.inRange => decide (c.rsi_low ≤ r ∧ r ≤ c.rsi_high)

/-- A row of `rsi_screen`'s output. -/
structure RsiRow where
  symbol : String
  current_price : ℚ
  rsi : ℚ
  score : ℚ
  deriving DecidableEq

/-- The matching rows, in universe order, before sorting/truncation.
Symbols with a failed fetch, an empty frame or no RSI column are
skipped. -/
def rsiMatches (univ : List String) (data : String → Option StockData)
    (c : RsiCriteria) : List RsiRow :=
  ((univ.filterMap fun sym =>
      (data sym).bind fun s => s.tech.bind fun t =>
        t.rsi.map fun r => (sym, t, r)).filter
      fun p => rsiMatch c p.2.2).map
    fun p => { symbol := p.1, current_price := p.2.1.close,
               rsi := round2 p.2.2, score := 100 - |p.2.2 - 50| }

/-- Models `rsi_screen`: match, sort (ascending RSI for oversold, descending
RSI for overbought, descending score otherwise), return the top 20. -/
def rsi_screen (univ : List String) (data : String → Option StockData)
    (c : RsiCriteria) : List RsiRow :=
  (match c.rsi_condition with
   | RsiCond.oversold =>
     sortAscBy (fun (r : RsiRow) => r.rsi) (rsiMatches univ data c)
   | RsiCond.overbought =>
     sortDescBy (fun (r : RsiRow) => r.rsi) (rsiMatches univ data c)
   | RsiCond.inRange =>
     sortDescBy (fun (r : RsiRow) => r.score) (rsiMatches univ data c)).take 20

/-!
### Properties of the stable sorts
-/

theorem insertDescBy_perm (key : α → ℚ) (x : α) (l : List α) :
    (insertDescBy key x l).Perm (x :: l) := by
  induction l with
  | nil => exact List.Perm.refl _
  | cons y ys ih =>
    unfold insertDescBy
    by_cases h : key x < key y
    · rw [if_pos h]
      exact List.Perm.trans (List.Perm.cons y ih) (List.Perm.swap x y ys)
    · rw [if_neg h]

theorem sortDescBy_perm (key : α → ℚ) (l : List α) :
    (sortDescBy key l).Perm l := by
  induction l with
  | nil => exact List.Perm.refl _
  | cons x xs ih =>
    exact List.Perm.trans (insertDescBy_perm key x (sortDescBy key xs))
      (List.Perm.cons x ih)

theorem insertAscBy_length (key : α → ℚ) (x : α) (l : List α) :
    (insertAscBy key x l).length = l.length + 1 := by
  induction l with
  | nil => rfl
  | cons y ys ih =>
    unfold insertAscBy
    by_cases h : key y < key x
    · rw [if_pos h]
      simp [ih]
    · rw [if_neg h]
      simp

theorem sortAscBy_length (key : α → ℚ) (l : List α) :
    (sortAscBy key l).length = l.length := by
  induction l with
  | nil => rfl
  | cons x xs ih =>
    unfold sortAscBy
    rw [insertAscBy_length, ih]
    simp

theorem sortDescBy_length (key : α → ℚ) (l : List α) :
    (sortDescBy key l).length = l.length :=
  (sortDescBy_perm key l).length_eq

theorem insertDescBy_pairwise (key : α → ℚ) (x : α) (l : List α)
    (h : l.Pairwise fun a b => key b ≤ key a) :
    (insertDescBy key x l).Pairwise fun a b => key b ≤ key a := by
  induction l with
  | nil => simp [insertDescBy]
  | cons y ys ih =>
    rw [List.pairwise_cons] at h
    obtain ⟨hy, hys⟩ := h
    unfold insertDescBy
    by_cases hxy : key x < key y
    · rw [if_pos hxy]
      rw [List.pairwise_cons]
      refine ⟨?_, ih hys⟩
      intro b hb
      have hmem : b ∈ x :: ys := (insertDescBy_perm key x ys).mem_iff.mp hb
      cases hmem with
      | head => exact le_of_lt hxy
      | tail _ hbys => exact hy b hbys
    · rw [if_neg hxy]
      push_neg at hxy
      rw [List.pairwise_cons]
      refine ⟨?_, List.Pairwise.cons hy hys⟩
      intro b hb
      cases hb with
      | head => exact hxy
      | tail _ hbys => exact le_trans (hy b hbys) hxy

theorem sortDescBy_pairwise (key : α → ℚ) (l : List α) :
    (sortDescBy key l).Pairwise fun a b => key b ≤ key a := by
  induction l with
  | nil => simp [sortDescBy]
  | cons x xs ih => exact insertDescBy_pairwise key x (sortDescBy key xs) ih

theorem insertDescBy_filter_key (key : α → ℚ) (q : ℚ) (x : α) (l : List α) :
    (insertDescBy key x l).filter (fun a => decide (key a = q)) =
      if key x = q then x :: l.filter (fun a => decide (key a = q))
      else l.filter (fun a => decide (key a = q)) := by
  induction l with
  | nil =>
    by_cases h : key x = q
    · simp [insertDescBy, List.filter, h]
    · simp [insertDescBy, List.filter, h]
  | cons y ys ih =>
    unfold insertDescBy
    by_cases hxy : key x < key y
    · rw [if_pos hxy]
      by_cases hx : key x = q
      · have hy : key y ≠ q := by
          intro h
          rw [hx] at hxy
          exact absurd h (ne_of_gt hxy)
        rw [if_pos hx]
        simp only [List.filter_cons, hy, decide_eq_true_eq, if_neg hy, ih,
          if_pos hx]
        simp [hy]
      · rw [if_neg hx]
        simp only [List.filter_cons, ih, if_neg hx]
    · rw [if_neg hxy]
      by_cases hx : key x = q
      · rw [if_pos hx]
        simp [List.filter_cons, hx]
      · rw [if_neg hx]
        simp [List.filter_cons, hx]

theorem sortDescBy_filter_key (key : α → ℚ) (q : ℚ) (l : List α) :
    (sortDescBy key l).filter (fun a => decide (key a = q)) =
      l.filter (fun a => decide (key a = q)) := by
  induction l with
  | nil => rfl
  | cons x xs ih =>
    unfold sortDescBy
    rw [insertDescBy_filter_key]
    by_cases hx : key x = q
    · rw [if_pos hx, ih]
      simp [List.filter_cons, hx]
    · rw [if_neg hx, ih]
      simp [List.filter_cons, hx]

/-- Claim C10 (confirmed): `rsi_screen` returns at most 20 rows: the
sorted match list is truncated to its first 20 entries, so the output
length is the minimum of the number of matches and 20, and any further
qualifying symbols are dropped. -/
theorem rsi_screen_top20 (univ : List String)
    (data : String → Option StockData) (c : RsiCriteria) :
    (rsi_screen univ data c).length =
      min (rsiMatches univ data c).length 20 ∧
    (rsi_screen univ data c).length ≤ 20 := by
  have hlen : (rsi_screen univ data c).length =
      min (rsiMatches univ data c).length 20 := by
    unfold rsi_screen
    cases c.rsi_condition with
    | oversold =>
      simp only [List.length_take, sortAscBy_length]
      exact Nat.min_comm _ _
    | overbought =>
      simp only [List.length_take, sortDescBy_length]
      exact Nat.min_comm _ _
    | inRange =>
      simp only [List.length_take, sortDescBy_length]
      exact Nat.min_comm _ _
  exact ⟨hlen, hlen ▸ Nat.min_le_right _ _⟩

/-!
## Claims about the screening engine
-/

/-- Concrete payload: only ROE set (passes the default fundamental
criteria; `roeScore 0.2 = 15`, all other components 0). -/
def sdRoe : StockData := { roe := some ((2:ℚ)/10) }

/-- Concrete payload: ROE set and a PE of 15. -/
def sdPe15 : StockData := { pe := some 15, roe := some ((2:ℚ)/10) }

/-- Concrete payload: passes the default fundamental screen but fails
the default technical screen (RSI 90 is outside [30, 70]). -/
def sdTech90 : StockData :=
  { roe := some ((2:ℚ)/10),
    tech := some { close := 100, rsi := some 90 },
    current_price := 100 }

/-- Claim C1 (counterexample): With one symbol whose data passes the
default fundamental criteria but has RSI 90 (failing the default
technical RSI range), `technical_screen` returns no rows yet
`combined_screen` still returns the symbol — so a combined entry need
*not* occur in the technical results: the join is not an inner join. -/
theorem combined_includes_symbol_failing_technical :
    ((combined_screen ["RELIANCE"] (fun _ => some sdTech90) {} {} none).map
      fun r => r.symbol) = ["RELIANCE"] ∧
    technical_screen ["RELIANCE"] (fun _ => some sdTech90) {} = [] := by
  have htech : technical_screen ["RELIANCE"] (fun _ => some sdTech90) {} = [] := by
    norm_num [technical_screen, techRows, sortDescBy, passesTech, rsiFilter,
      sma20Filter, sma50Filter, macdFilter, volspikeFilter, minvolFilter,
      breakoutFilter, sdTech90, List.filterMap, List.filter]
  refine ⟨?_, htech⟩
  have hfund : fundamental_screen ["RELIANCE"] (fun _ => some sdTech90) {} =
      [{ symbol := "RELIANCE", pe := none, financial_score := 15 }] := by
    norm_num [fundamental_screen, fundRows, sortDescBy, insertDescBy,
      passesFund, mcFilter, peFilter, roeFilter, deFilter, pmFilter, rgFilter,
      divFilter, secFilter, calculate_financial_score, peScore, pbScore,
      roeScore, pmScore, deScore, crScore, growthScore1, divScore, sdTech90,
      List.filterMap, List.filter]
  simp only [combined_screen]
  rw [hfund, htech]
  norm_num [combRows, sortDescBy, insertDescBy, techLookup]

/-- Claim C1 (amended): `combined_screen` performs a *left* join on the
fundamental results: its output symbols are exactly (a permutation of)
the symbols of `fundamental_screen`'s output; a symbol absent from the
technical results still appears, contributing 0 as technical score. -/
theorem combined_screen_left_join (univ : List String)
    (data : String → Option StockData) (fc : FundCriteria)
    (tc : TechCriteria) (w : Option ScreenWeights) :
    ((combined_screen univ data fc tc w).map fun r => r.symbol).Perm
      ((fundamental_screen univ data fc).map fun r => r.symbol) := by
  unfold combined_screen
  have hperm := sortDescBy_perm (fun (r : CombRow) => r.combined_score)
    (combRows (fundamental_screen univ data fc) (technical_screen univ data tc)
      (w.getD { fundamental := (3:ℚ)/5, technical := (2:ℚ)/5 }))
  have hmap := hperm.map fun (r : CombRow) => r.symbol
  refine hmap.trans ?_
  unfold combRows
  rw [List.map_map]
  exact List.Perm.refl _

/-- Claim C2 (counterexample): With weights `(1, 1)` (sum 2 > 0) the code
emits `15·1 + 0·1 = 15`, whereas the claimed renormalized score would be
`15·(1/2) + 0·(1/2) = 7.5`: the weights are *not* renormalized. -/
theorem combined_score_not_renormalized :
    ((combined_screen ["RELIANCE"] (fun _ => some sdTech90) {} {}
        (some { fundamental := 1, technical := 1 })).map
      fun r => r.combined_score) = [15] ∧
    (15:ℚ) ≠ 15 * (1 / (1 + 1)) + 0 * (1 / (1 + 1)) := by
  have htech : technical_screen ["RELIANCE"] (fun _ => some sdTech90) {} = [] := by
    norm_num [technical_screen, techRows, sortDescBy, passesTech, rsiFilter,
      sma20Filter, sma50Filter, macdFilter, volspikeFilter, minvolFilter,
      breakoutFilter, sdTech90, List.filterMap, List.filter]
  have hfund : fundamental_screen ["RELIANCE"] (fun _ => some sdTech90) {} =
      [{ symbol := "RELIANCE", pe := none, financial_score := 15 }] := by
    norm_num [fundamental_screen, fundRows, sortDescBy, insertDescBy,
      passesFund, mcFilter, peFilter, roeFilter, deFilter, pmFilter, rgFilter,
      divFilter, secFilter, calculate_financial_score, peScore, pbScore,
      roeScore, pmScore, deScore, crScore, growthScore1, divScore, sdTech90,
      List.filterMap, List.filter]
  constructor
  · simp only [combined_screen]
    rw [hfund, htech]
    norm_num [combRows, sortDescBy, insertDescBy, techLookup]
  · norm_num

/-- Claim C2 (amended): The combined score is
`financial_score·w_f + technical_score·w_t` with the caller's weights
used exactly as given (no renormalization); the 0.6/0.4 defaults apply
only when the weights argument is absent (`None`) — in particular, an
explicit all-zero weights dict yields all-zero combined scores rather
than the defaults. -/
theorem combined_screen_weights (univ : List String)
    (data : String → Option StockData) (fc : FundCriteria)
    (tc : TechCriteria) (w : ScreenWeights) (r : CombRow)
    (hr : r ∈ combined_screen univ data fc tc (some w)) :
    (r.combined_score = r.financial_score * w.fundamental +
      (r.technical_score.getD 0) * w.technical) ∧
    combined_screen univ data fc tc none =
      combined_screen univ data fc tc
        (some { fundamental := (3:ℚ)/5, technical := (2:ℚ)/5 }) := by
  refine ⟨?_, rfl⟩
  unfold combined_screen at hr
  have hmem := (sortDescBy_perm (fun (x : CombRow) => x.combined_score)
    _).mem_iff.mp hr
  unfold combRows at hmem
  rw [List.mem_map] at hmem
  obtain ⟨f, _, hf⟩ := hmem
  subst hf
  rfl

/-- The single combined row emitted for the `sdTech90` data under
weights `(1, 1)`. -/
def rC2 : CombRow :=
  { symbol := "RELIANCE", financial_score := 15, technical_score := none,
    combined_score := 15 }

/-- The explicit `(1, 1)` weights. -/
def wC2 : ScreenWeights := { fundamental := 1, technical := 1 }

/-- Witness for `combined_screen_weights`: the single emitted row for
the `sdTech90` data under weights `(1, 1)`. -/
theorem combined_screen_weights_witness :
    (rC2.combined_score = rC2.financial_score * wC2.fundamental +
      (rC2.technical_score.getD 0) * wC2.technical) ∧
    combined_screen ["RELIANCE"] (fun _ => some sdTech90) {} {} none =
      combined_screen ["RELIANCE"] (fun _ => some sdTech90) {} {}
        (some { fundamental := (3:ℚ)/5, technical := (2:ℚ)/5 }) := by
  refine combined_screen_weights ["RELIANCE"] (fun _ => some sdTech90) {} {}
    wC2 rC2 ?_
  have htech : technical_screen ["RELIANCE"] (fun _ => some sdTech90) {} = [] := by
    norm_num [technical_screen, techRows, sortDescBy, passesTech, rsiFilter,
      sma20Filter, sma50Filter, macdFilter, volspikeFilter, minvolFilter,
      breakoutFilter, sdTech90, List.filterMap, List.filter]
  have hfund : fundamental_screen ["RELIANCE"] (fun _ => some sdTech90) {} =
      [{ symbol := "RELIANCE", pe := none, financial_score := 15 }] := by
    norm_num [fundamental_screen, fundRows, sortDescBy, insertDescBy,
      passesFund, mcFilter, peFilter, roeFilter, deFilter, pmFilter, rgFilter,
      divFilter, secFilter, calculate_financial_score, peScore, pbScore,
      roeScore, pmScore, deScore, crScore, growthScore1, divScore, sdTech90,
      List.filterMap, List.filter]
  simp only [combined_screen]
  rw [hfund, htech]
  norm_num [combRows, sortDescBy, insertDescBy, techLookup, rC2, wC2]

/-- Criteria with structurally contradictory PE bounds
(`min_pe_ratio = 30 > 10 = max_pe_ratio`). -/
def cBadPe : FundCriteria := { min_pe := 30, max_pe := 10 }

/-- Claim C3 (counterexample): With `min_pe_ratio = 30 > max_pe_ratio = 10`
the screen is *not* rejected: no error value exists anywhere in the
screener, the contradictory criteria are silently applied — the symbol
with PE 15 is filtered out while the symbol with a missing PE passes —
and a partial result `["TCS"]` is returned. -/
theorem contradictory_pe_silently_applied :
    ((fundamental_screen ["RELIANCE", "TCS"]
        (fun s => if s = "RELIANCE" then some sdPe15 else some sdRoe)
        cBadPe).map fun r => r.symbol) = ["TCS"] := by
  norm_num [fundamental_screen, fundRows, sortDescBy, insertDescBy,
    passesFund, mcFilter, peFilter, roeFilter, deFilter, pmFilter, rgFilter,
    divFilter, secFilter, calculate_financial_score, peScore, pbScore,
    roeScore, pmScore, deScore, crScore, growthScore1, divScore, sdPe15,
    sdRoe, cBadPe, List.filterMap, List.filter]

/-- Claim C3 (amended): `fundamental_screen` performs no criteria
validation and raises no error: under `min_pe_ratio > max_pe_ratio` it
silently applies the unsatisfiable PE range, so every returned row
belongs to a symbol whose PE was missing (`None`) or `0` (the falsy
values that skip the PE filter); all symbols with a usable PE are
dropped and the partial result is returned normally. -/
theorem fundamental_screen_contradictory_pe (univ : List String)
    (data : String → Option StockData) (c : FundCriteria)
    (h : c.max_pe < c.min_pe) (r : FundRow)
    (hr : r ∈ fundamental_screen univ data c) :
    r.pe = none ∨ r.pe = some 0 := by
  unfold fundamental_screen at hr
  have hmem := (sortDescBy_perm (fun (x : FundRow) => x.financial_score)
    _).mem_iff.mp hr
  unfold fundRows at hmem
  rw [List.mem_map] at hmem
  obtain ⟨p, hp, hpr⟩ := hmem
  rw [List.mem_filter] at hp
  obtain ⟨_, hpass⟩ := hp
  have hpe : peFilter c p.2 = true := by
    unfold passesFund at hpass
    simp only [Bool.and_eq_true] at hpass
    exact hpass.1.1.1.1.1.1.2
  subst hpr
  simp only
  unfold peFilter at hpe
  cases hq : p.2.pe with
  | none => exact Or.inl rfl
  | some q =>
    rw [hq] at hpe
    have hif : (if q = 0 then true
        else decide (c.min_pe ≤ q ∧ q ≤ c.max_pe)) = true := hpe
    by_cases hq0 : q = 0
    · subst hq0
      exact Or.inr rfl
    · rw [if_neg hq0, decide_eq_true_eq] at hif
      exact absurd (lt_of_le_of_lt (le_trans hif.1 hif.2) h) (lt_irrefl _)

/-- Witness for `fundamental_screen_contradictory_pe`: the TCS row
returned under the contradictory bounds has a missing PE. -/
theorem fundamental_screen_contradictory_pe_witness :
    ({ symbol := "TCS", pe := none, financial_score := 15 } : FundRow).pe =
      none ∨
    ({ symbol := "TCS", pe := none, financial_score := 15 } : FundRow).pe =
      some 0 := by
  refine fundamental_screen_contradictory_pe ["RELIANCE", "TCS"]
    (fun s => if s = "RELIANCE" then some sdPe15 else some sdRoe) cBadPe
    (by norm_num [cBadPe])
    { symbol := "TCS", pe := none, financial_score := 15 } ?_
  norm_num [fundamental_screen, fundRows, sortDescBy, insertDescBy,
    passesFund, mcFilter, peFilter, roeFilter, deFilter, pmFilter, rgFilter,
    divFilter, secFilter, calculate_financial_score, peScore, pbScore,
    roeScore, pmScore, deScore, crScore, growthScore1, divScore, sdPe15,
    sdRoe, cBadPe, List.filterMap, List.filter]

/-- Active PE-range criteria (`min_pe_ratio = 10`, `max_pe_ratio = 20`). -/
def cPeRange : FundCriteria := { min_pe := 10, max_pe := 20 }

/-- Claim C4 (counterexample): Under an active PE-range filter, a symbol
whose fetched data has *no* PE value is returned anyway: the filter is
silently skipped for the missing field (fails open), contradicting the
claimed fail-closed exclusion. -/
theorem missing_pe_passes_active_filter :
    ((fundamental_screen ["RELIANCE"] (fun _ => some sdRoe) cPeRange).map
      fun r => r.symbol) = ["RELIANCE"] ∧
    sdRoe.pe = none := by
  constructor
  · norm_num [fundamental_screen, fundRows, sortDescBy, insertDescBy,
      passesFund, mcFilter, peFilter, roeFilter, deFilter, pmFilter, rgFilter,
      divFilter, secFilter, calculate_financial_score, peScore, pbScore,
      roeScore, pmScore, deScore, crScore, growthScore1, divScore, sdRoe,
      cPeRange, List.filterMap, List.filter]
  · rfl

/-- Claim C4 (amended): A missing field makes its filter a no-op rather
than excluding the symbol: with `pe = None` the PE filter accepts
unconditionally and the fundamental screen reduces to the remaining
filters; with `RSI = None` the technical RSI filter accepts
unconditionally and the technical screen reduces to its remaining
filters.  Missing fields fail *open*, not closed. -/
theorem missing_fields_fail_open (c : FundCriteria) (tc : TechCriteria)
    (s : StockData) (t : TechData)
    (hpe : s.pe = none) (hrsi : t.rsi = none) :
    peFilter c s = true ∧ rsiFilter tc t = true ∧
    passesFund c s = (mcFilter c s && roeFilter c s && deFilter c s &&
      pmFilter c s && rgFilter c s && divFilter c s && secFilter c s) ∧
    passesTech tc t = (sma20Filter tc t && sma50Filter tc t &&
      macdFilter tc t && volspikeFilter tc t && minvolFilter tc t &&
      breakoutFilter tc t) := by
  have h1 : peFilter c s = true := by
    unfold peFilter
    rw [hpe]
  have h2 : rsiFilter tc t = true := by
    unfold rsiFilter
    rw [hrsi]
  refine ⟨h1, h2, ?_, ?_⟩
  · unfold passesFund
    rw [h1]
    simp [Bool.and_assoc]
  · unfold passesTech
    rw [h2]
    simp [Bool.and_assoc]

/-- Witness for `missing_fields_fail_open` at the default criteria,
the `sdRoe` payload (no PE) and an empty technical row (no RSI). -/
theorem missing_fields_fail_open_witness :
    peFilter {} sdRoe = true ∧ rsiFilter {} {} = true ∧
    passesFund {} sdRoe = (mcFilter {} sdRoe && roeFilter {} sdRoe &&
      deFilter {} sdRoe && pmFilter {} sdRoe && rgFilter {} sdRoe &&
      divFilter {} sdRoe && secFilter {} sdRoe) ∧
    passesTech {} {} = (sma20Filter {} {} && sma50Filter {} {} &&
      macdFilter {} {} && volspikeFilter {} {} && minvolFilter {} {} &&
      breakoutFilter {} {}) :=
  missing_fields_fail_open {} {} sdRoe {} rfl rfl

/-- Claim C8 (counterexample): Two symbols with equal financial score 15
are returned in universe order `["RELIANCE", "HDFCBANK"]`, although
ascending lexical order of the tied symbols would put `"HDFCBANK"`
first: ties are *not* broken by symbol lexical order. -/
theorem equal_scores_keep_universe_order :
    ((fundamental_screen ["RELIANCE", "HDFCBANK"] (fun _ => some sdRoe)
        {}).map fun r => r.symbol) = ["RELIANCE", "HDFCBANK"] ∧
    ((fundamental_screen ["RELIANCE", "HDFCBANK"] (fun _ => some sdRoe)
        {}).map fun r => r.financial_score) = [15, 15] ∧
    ("HDFCBANK" < "RELIANCE") := by
  have heval : fundamental_screen ["RELIANCE", "HDFCBANK"]
      (fun _ => some sdRoe) {} =
      [{ symbol := "RELIANCE", pe := none, financial_score := 15 },
       { symbol := "HDFCBANK", pe := none, financial_score := 15 }] := by
    norm_num [fundamental_screen, fundRows, sortDescBy, insertDescBy,
      passesFund, mcFilter, peFilter, roeFilter, deFilter, pmFilter, rgFilter,
      divFilter, secFilter, calculate_financial_score, peScore, pbScore,
      roeScore, pmScore, deScore, crScore, growthScore1, divScore, sdRoe,
      List.filterMap, List.filter]
  refine ⟨by rw [heval]; rfl, by rw [heval]; rfl, ?_⟩
  rw [String.lt_iff_toList_lt]
  decide

/-- Claim C8 (amended): The scan output is a stable sort of the appended
rows by score, descending: scores are non-increasing along the result,
and entries with equal score keep their pre-sort (universe-iteration)
order — not ascending lexical symbol order.  The output is still a
deterministic function of the inputs and criteria (the screens are pure
functions here). -/
theorem screen_sort_deterministic (univ : List String)
    (data : String → Option StockData) (c : FundCriteria)
    (fc : FundCriteria) (tc : TechCriteria) (w : Option ScreenWeights)
    (q : ℚ) :
    (fundamental_screen univ data c).Pairwise
      (fun a b => b.financial_score ≤ a.financial_score) ∧
    (fundamental_screen univ data c).filter
        (fun r => decide (r.financial_score = q)) =
      (fundRows univ data c).filter
        (fun r => decide (r.financial_score = q)) ∧
    (combined_screen univ data fc tc w).Pairwise
      (fun a b => b.combined_score ≤ a.combined_score) := by
  refine ⟨?_, ?_, ?_⟩
  · exact sortDescBy_pairwise (fun (r : FundRow) => r.financial_score)
      (fundRows univ data c)
  · exact sortDescBy_filter_key (fun (r : FundRow) => r.financial_score) q
      (fundRows univ data c)
  · unfold combined_screen
    exact sortDescBy_pairwise (fun (r : CombRow) => r.combined_score) _
